import Mathlib

set_option maxHeartbeats 1000000

/-
Verification development for the cxx-compiler-explorer build-and-cache
pipeline.  The definitions below are a shallow embedding of
`src/compile_commands.ts` (CompileCommand processing, command synthesis,
the static CompileCommands registry with its staleness oracle and build
executor) and of the AsmDocument rendering layer.  Filesystems are
modelled as partial maps from paths to modification times; processes are
modelled by their captured `spawnSync` results; fallible operations (the
unguarded `fs.statSync` calls) return `Except`.
-/

/-- A filesystem snapshot: maps a path to the file's mtime, `none` when the
file does not exist. -/
abbrev FS := String → Option Int

/-! ### Tokenisation of a raw `command` string

`CompileCommand.process` splits `this._command` with the JavaScript call
`match(/[^"\s]*("(\\"|[^"])+")?/g)`.  We embed the regex semantics: a
maximal run of non-quote non-space characters, optionally followed by a
double-quoted span (with `\"` escapes); global matching advances one
character past a zero-width match. -/

/-- Characters matched by the JavaScript `\s` class (the ones that can occur
in command strings). -/
def isJsSpace (c : Char) : Bool :=
  c = ' ' || c = '\t' || c = '\n' || c = '\r' || c = '\x0b' || c = '\x0c'

/-- Number of characters matched by the regex fragment `(\\"|[^"])* "`,
with backtracking preference for the `\\"` alternative, `none` when there
is no match. -/
def qtail : List Char → Option Nat
  | [] => none
  | '"' :: _ => some 1
  | '\\' :: '"' :: rest =>
      (match qtail rest with | some n => some (n + 2) | none => none) <|>
      (match qtail ('"' :: rest) with | some n => some (n + 1) | none => none)
  | _ :: rest => (qtail rest).map (· + 1)
termination_by l => l.length
decreasing_by all_goals (simp [List.length]) <;> omega

/-- Number of characters matched by the regex fragment `(\\"|[^"])+ "`
(the body of the optional quoted span, which requires at least one inner
element before the closing quote). -/
def qplus : List Char → Option Nat
  | [] => none
  | '"' :: _ => none
  | '\\' :: '"' :: rest =>
      (match qtail rest with | some n => some (n + 2) | none => none) <|>
      (match qtail ('"' :: rest) with | some n => some (n + 1) | none => none)
  | _ :: rest => (qtail rest).map (· + 1)

/-- Length of the (possibly empty) match of `[^"\s]*("(\\"|[^"])+")?` at the
head of `cs`. -/
def matchToken (cs : List Char) : Nat :=
  let run := cs.takeWhile (fun c => !(isJsSpace c) && c != '"')
  let rest := cs.drop run.length
  let q := match rest with
    | '"' :: r2 => match qplus r2 with | some n => n + 1 | none => 0
    | _ => 0
  run.length + q

/-- Global regex matching: collect successive matches, advancing one
character after a zero-width match (matched empty strings are kept, as in
JavaScript, and filtered out by the caller). -/
def tokenizeGo : Nat → List Char → List String
  | 0, _ => []
  | _ + 1, [] => [""]
  | fuel + 1, cs =>
      let n := matchToken cs
      if n = 0 then "" :: tokenizeGo fuel (cs.drop 1)
      else String.mk (cs.take n) :: tokenizeGo fuel (cs.drop n)

/-- `s.match(/[^"\s]*("(\\"|[^"])+")?/g)` as a list of matched strings. -/
def tokenize (s : String) : List String :=
  tokenizeGo (s.length + 1) s.data

/-! ### `CompileCommand.sanitizeArgs` -/

/-- The body of `sanitizeArgs`: a left-to-right filter with the mutable
`isOutfile` flag threaded as the `Bool` state. -/
def sanitizeGo : Bool → List String → List String
  | _, [] => []
  | true, _ :: rest => sanitizeGo false rest
  | false, a :: rest =>
      if a = "-o" then sanitizeGo true rest
      else if a = "-c" || a = "-g" then sanitizeGo false rest
      else a :: sanitizeGo false rest

/-- `CompileCommand.sanitizeArgs` (the `isOutfile` flag starts out false). -/
def sanitizeArgs (args : List String) : List String := sanitizeGo false args

/-- Keep/drop decision of `sanitizeArgs` for each input position, in input
order: `true` at position `i` means the `i`-th input token survives into
the output.  Mirrors the state transitions of `sanitizeGo` exactly. -/
def sanitizeMask : Bool → List String → List Bool
  | _, [] => []
  | true, _ :: rest => false :: sanitizeMask false rest
  | false, a :: rest =>
      if a = "-o" then false :: sanitizeMask true rest
      else if a = "-c" || a = "-g" then false :: sanitizeMask false rest
      else true :: sanitizeMask false rest

/-- Select the elements of a list marked `true` by a parallel mask. -/
def maskFilter : List String → List Bool → List String
  | a :: as, true :: bs => a :: maskFilter as bs
  | _ :: as, false :: bs => maskFilter as bs
  | _, _ => []

/-! ### Command synthesis -/

/-- JavaScript `Array.prototype.join(' ')`, used by `getCommand`. -/
def getCommand : List String → String
  | [] => ""
  | [a] => a
  | a :: b :: rest => a ++ " " ++ getCommand (b :: rest)

/-- `CompileCommand.getDisassembleCommand` applied to a processed command's
compiler executable and sanitized args. -/
def getDisassembleCommand (command : String) (args : List String) (outFile : String) : String :=
  getCommand ([command, "-g1", "-S", "-masm=intel", "-fno-unwind-tables",
    "-fno-asynchronous-unwind-tables", "-fno-dwarf2-cfi-asm"] ++ args ++
    ["-o", "\"" ++ outFile ++ "\""])

/-- `CompileCommand.getPreprocessCommand`. -/
def getPreprocessCommand (command : String) (args : List String) (outFile : String) : String :=
  getCommand ([command, "-E", "-o", outFile] ++ args)

/-- `CompileCommand.getLLVMDisassembleCommand`. -/
def getLLVMDisassembleCommand (command : String) (args : List String) (outFile : String) : String :=
  getCommand ([command, "-g", "-S", "-emit-llvm", "-o", outFile] ++ args)

/-! ### CompileCommand records and processing -/

/-- One raw entry of the compilation database, as deserialized by
json2typescript (`_command` empty means the `command` property was absent,
matching the class's default value). -/
structure CompileCommandRaw where
  file : String
  _command : String
  _arguments : List String
  directory : String
deriving DecidableEq

/-- The fields `CompileCommand.process()` fills in: absolute source path,
compiler executable, sanitized argument list. -/
structure ProcessedCommand where
  uri : String
  command : String
  args : List String
deriving DecidableEq

/-- Modelled behaviour of Node `Path.resolve(directory, file)` for the
cases this codebase exercises: an absolute `file` stands alone, a relative
one is joined to the directory. -/
def pathResolve (directory file : String) : String :=
  match file.data with
  | '/' :: _ => file
  | _ => directory ++ "/" ++ file

/-- `CompileCommand.process()`: tokenize the raw command string (or take
the argument list), drop empty tokens, split off the executable, sanitize
the rest, and resolve the source path. -/
def process (c : CompileCommandRaw) : ProcessedCommand :=
  let commands := (if c._command.length ≠ 0 then tokenize c._command else c._arguments).filter
    (fun arg => arg.length > 0)
  { uri := pathResolve c.directory c.file
  , command := (commands.head?).getD ""
  , args := sanitizeArgs (commands.drop 1) }

/-! ### The registry state -/

/-- `CompileInfo` from the source: artifact path (`uri`), source path
(`srcUri`), synthesized command, compilation directory, and the
`extraArgs` recorded by the last successful build. -/
structure CompileInfo where
  uri : String
  srcUri : String
  command : String
  compilationDirectory : String
  extraArgs : List String
deriving DecidableEq

/-- Modelled from the spec: `arrayEquals` (imported from `src/utils.ts`,
which is not among the provided sources) — the spec states the extra-args
comparison is order-sensitive, i.e. element-wise equality of the two
string arrays. -/
def arrayEquals (a b : List String) : Bool := decide (a = b)

/-- `CompileInfo.extraArgsChanged`. -/
def extraArgsChanged (info : CompileInfo) (extraArgs : List String) : Bool :=
  !(arrayEquals extraArgs info.extraArgs)

/-- The second argument of `CompileCommands.fileNewer`: a path, a `Date`,
or `undefined` (absent). -/
inductive FileTarget
  | path (p : String)
  | date (d : Int)
deriving DecidableEq

/-- JavaScript falsiness of the `target` argument (`undefined` and the
empty string are falsy, a `Date` object never is). -/
def isFalsyTarget : Option FileTarget → Bool
  | none => true
  | some (.path p) => decide (p = "")
  | some (.date _) => false

/-- `CompileCommands.fileNewer`.  The first path is passed to
`fs.statSync` unguarded: a missing `source` file raises (modelled as
`Except.error`).  The target side is guarded by `fs.existsSync`. -/
def fileNewer (fs : FS) (source : String) (target : Option FileTarget) : Except String Bool :=
  if isFalsyTarget target then .ok true
  else
    match fs source with
    | none => .error ("ENOENT: " ++ source)
    | some srcM =>
      match target with
      | some (.date d) => .ok (decide (srcM > d))
      | some (.path p) =>
          match fs p with
          | none => .ok true
          | some tgtM => .ok (decide (srcM > tgtM))
      | none => .ok true

/-- Staleness of an artifact file against a timestamp `m`: an absent
artifact is infinitely stale, otherwise compare mtimes. -/
def staleAgainst (fs : FS) (m : Int) (artifact : String) : Bool :=
  match fs artifact with
  | none => true
  | some am => decide (m > am)

/-- `CompileCommands.needCompilation` — the staleness oracle, with the
JavaScript `||` short-circuit order (args first, then source vs artifact,
then database vs artifact). -/
def needCompilation (fs : FS) (dbPath : String) (currentExtraArgs : List String)
    (info : CompileInfo) : Except String Bool :=
  if extraArgsChanged info currentExtraArgs then .ok true
  else
    match fileNewer fs info.srcUri (some (.path info.uri)) with
    | .error e => .error e
    | .ok true => .ok true
    | .ok false => fileNewer fs dbPath (some (.path info.uri))

/-! ### JavaScript `Map` as an association list -/

/-- `Map.prototype.set`: overwrite the existing binding or append. -/
def mapSet {α : Type} (m : List (String × α)) (k : String) (v : α) : List (String × α) :=
  match m with
  | [] => [(k, v)]
  | (k0, v0) :: rest => if k0 = k then (k, v) :: rest else (k0, v0) :: mapSet rest k v

/-- `Map.prototype.get`. -/
def mapGet {α : Type} (m : List (String × α)) (k : String) : Option α :=
  match m with
  | [] => none
  | (k0, v0) :: rest => if k0 = k then some v0 else mapGet rest k

theorem mapGet_mapSet_self {α : Type} (m : List (String × α)) (k : String) (v : α) :
    mapGet (mapSet m k v) k = some v := by
  induction m with
  | nil => simp [mapSet, mapGet]
  | cons hd tl ih =>
      obtain ⟨k0, v0⟩ := hd
      by_cases h : k0 = k <;> simp [mapSet, mapGet, h, ih]

/-! ### The static `CompileCommands` state and its environment -/

/-- The mutable static fields of `CompileCommands`. -/
structure CCState where
  compileCommands : List (String × CompileInfo)
  asmUriMap : List (String × String)
  llvmUriMap : List (String × String)
  preprocessUriMap : List (String × String)
  initTime : Option Int
  extraArgs : List String
deriving DecidableEq

/-- The environment of one operation: the filesystem snapshot, the
configured compilation-database path and its parsed entries, the output
directory (with its trailing slash, as the source appends one) and the
workspace root. -/
structure World where
  fs : FS
  dbPath : String
  dbEntries : List CompileCommandRaw
  outDir : String
  rootPath : String

/-- Index of the last occurrence of a character (JavaScript
`String.prototype.lastIndexOf`). -/
def lastIndexOfChar (l : List Char) (c : Char) : Option Nat :=
  match l with
  | [] => none
  | a :: rest =>
      match lastIndexOfChar rest c with
      | some i => some (i + 1)
      | none => if a = c then some 0 else none

/-- `srcUri.path.slice(srcUri.path.lastIndexOf("."), srcUri.path.length)`
with JavaScript semantics: when there is no dot, `lastIndexOf` is `-1` and
`slice(-1)` yields the last character. -/
def jsSliceFromLastDot (p : String) : String :=
  match lastIndexOfChar p.data '.' with
  | some i => String.mk (p.data.drop i)
  | none => String.mk (p.data.drop (p.data.length - 1))

/-- The extension chosen by `getUriForScheme` for each scheme. -/
def extOfScheme (scheme : String) (srcPath : String) : String :=
  if scheme = "disassembly" then ".s"
  else if scheme = "llvm" then ".ll"
  else ".E" ++ jsSliceFromLastDot srcPath

/-- Modelled behaviour of Node `Path.relative(root, p)` for the case the
path lies under the root (the only case this codebase exercises). -/
def pathRelative (root p : String) : String :=
  if p = root then ""
  else if List.isPrefixOf (root.data ++ ['/']) p.data then
    String.mk (p.data.drop (root.data.length + 1))
  else p

/-- `relativePath.replace(/\//g, '@')`: replace every slash by `@`. -/
def replaceSlashes (p : String) : String :=
  String.mk (p.data.map (fun c => if c = '/' then '@' else c))

/-- `CompileCommands.getUriForScheme`: artifact path = output directory ++
root-relative source path with `/` replaced by `@` ++ scheme extension. -/
def getUriForScheme (w : World) (srcPath scheme : String) : String :=
  w.outDir ++ replaceSlashes (pathRelative w.rootPath srcPath) ++ extOfScheme scheme srcPath

/-- `CompileCommands.processCompileCommand`: process one database entry
and register its three artifacts (the preprocess artifact uses the source
uri's own scheme, i.e. `file`, hence the default extension branch). -/
def processCompileCommand (w : World) (s : CCState) (c : CompileCommandRaw) : CCState :=
  let p := process c
  let asmPath := getUriForScheme w p.uri "disassembly"
  let llvmPath := getUriForScheme w p.uri "llvm"
  let prePath := getUriForScheme w p.uri "file"
  { s with
    asmUriMap := mapSet s.asmUriMap p.uri asmPath
  , llvmUriMap := mapSet s.llvmUriMap p.uri llvmPath
  , preprocessUriMap := mapSet s.preprocessUriMap p.uri prePath
  , compileCommands :=
      mapSet (mapSet (mapSet s.compileCommands
        asmPath ⟨asmPath, p.uri, getDisassembleCommand p.command p.args asmPath,
          c.directory, []⟩)
        llvmPath ⟨llvmPath, p.uri, getLLVMDisassembleCommand p.command p.args llvmPath,
          c.directory, []⟩)
        prePath ⟨prePath, p.uri, getPreprocessCommand p.command p.args prePath,
          c.directory, []⟩ }

/-- `CompileCommands.init`: when the database file exists, process every
entry and stamp `initTime` with the current time; returns whether the
load happened. -/
def init (w : World) (now : Int) (s : CCState) : CCState × Bool :=
  if (w.fs w.dbPath).isSome then
    let s1 := w.dbEntries.foldl (processCompileCommand w) s
    ({ s1 with initTime := some now }, true)
  else (s, false)

/-- `CompileCommands.update`: the hot-reload check — if the database file
is newer than the last load timestamp, clear the `compileCommands` map and
re-run `init`. -/
def update (w : World) (now : Int) (s : CCState) : Except String CCState :=
  match fileNewer w.fs w.dbPath (s.initTime.map FileTarget.date) with
  | .error e => .error e
  | .ok true => .ok (init w now { s with compileCommands := [] }).1
  | .ok false => .ok s

/-! ### The build executor -/

/-- A captured `child_process.spawnSync` result: exit status (null when
the process did not exit normally), start-failure error, captured output
streams. -/
structure SpawnResult where
  status : Option Int
  error : Option String
  output : Option (List String)
deriving DecidableEq

/-- The failure test `result.status || result.error` (a numeric status is
truthy exactly when non-zero; `null` is falsy). -/
def buildFailed (r : SpawnResult) : Bool :=
  (match r.status with | some n => decide (n ≠ 0) | none => false) || r.error.isSome

/-- JavaScript `Array.prototype.join("\n")`. -/
def joinNl : List String → String
  | [] => ""
  | [a] => a
  | a :: b :: rest => a ++ "\n" ++ joinNl (b :: rest)

/-- The error string built by `execCompileCommand` on a failed build. -/
def execErrorMsg (build : SpawnResult) : String :=
  let error := match build.error with
    | some m => m
    | none => match build.output with
      | some o => joinNl o
      | none => ""
  error ++ "  failed with error code " ++
    (match build.status with | some n => toString n | none => "null")

/-- A single quote character (written by code point to keep the source
free of bare quote characters). -/
def sQuote : String := String.singleton (Char.ofNat 39)

/-- A backtick character. -/
def bTick : String := String.singleton (Char.ofNat 96)

/-- The fixed demangling post-pass command
`echo "`c++filt -t < 'FILE'`" > 'FILE'` built over the artifact path. -/
def filtCommand (p : String) : String :=
  "echo \"" ++ bTick ++ "c++filt -t < " ++ sQuote ++ p ++ sQuote ++ bTick ++ "\" > " ++ sQuote ++ p ++ sQuote

/-- Result type of `CompileCommands.compile`: `true`, `false` (no record),
or an error string. -/
inductive CompRes
  | ok
  | notFound
  | err (msg : String)
deriving DecidableEq

/-- Everything `execCompileCommand` produces: its return value, the
(possibly mutated) record, the processes it spawned as (command, cwd)
pairs in spawn order, and the lines appended to the error channel. -/
structure ExecOut where
  result : CompRes
  info : CompileInfo
  invocations : List (String × String)
  log : List String
deriving DecidableEq

/-- `CompileCommands.execCompileCommand`: spawn the build command (record
command plus a space plus the joined extra args), then unconditionally
spawn the demangling post-pass, log the post-pass status when present;
fail (leaving the record untouched) when the build failed, otherwise
record the extra args on the record and succeed. -/
def execCompileCommand (info : CompileInfo) (extraArgs : List String)
    (build filt : SpawnResult) : ExecOut :=
  let command := info.command ++ " " ++ getCommand extraArgs
  let fc := filtCommand info.uri
  let log := [command, fc] ++ (match filt.status with | some n => [toString n] | none => [])
  if buildFailed build then
    { result := .err (execErrorMsg build)
    , info := info
    , invocations := [(command, info.compilationDirectory), (fc, info.compilationDirectory)]
    , log := log }
  else
    { result := .ok
    , info := { info with extraArgs := extraArgs }
    , invocations := [(command, info.compilationDirectory), (fc, info.compilationDirectory)]
    , log := log }

/-! ### The public operations -/

/-- `CompileCommands.compile`: hot-reload check, record lookup, staleness
oracle, then (only when stale) the build executor.  The result carries the
final state and the list of spawned processes. -/
def compile (w : World) (now : Int) (build filt : SpawnResult) (s : CCState)
    (uriPath : String) : Except String (CompRes × CCState × List (String × String)) :=
  match update w now s with
  | .error e => .error e
  | .ok s1 =>
    match mapGet s1.compileCommands uriPath with
    | none => .ok (.notFound, s1, [])
    | some info =>
      match needCompilation w.fs w.dbPath s1.extraArgs info with
      | .error e => .error e
      | .ok true =>
          let out := execCompileCommand info s1.extraArgs build filt
          .ok (out.result,
            { s1 with compileCommands := mapSet s1.compileCommands uriPath out.info },
            out.invocations)
      | .ok false => .ok (.ok, s1, [])

/-- `CompileCommands.getSrcUri`. -/
def getSrcUri (w : World) (now : Int) (s : CCState) (uriPath : String) :
    Except String (Option String × CCState) :=
  match update w now s with
  | .error e => .error e
  | .ok s1 => .ok ((mapGet s1.compileCommands uriPath).map CompileInfo.srcUri, s1)

/-- `CompileCommands.getAsmUri`. -/
def getAsmUri (w : World) (now : Int) (s : CCState) (uriPath : String) :
    Except String (Option String × CCState) :=
  match update w now s with
  | .error e => .error e
  | .ok s1 => .ok (mapGet s1.asmUriMap uriPath, s1)

/-- `CompileCommands.getLLVMUri`. -/
def getLLVMUri (w : World) (now : Int) (s : CCState) (uriPath : String) :
    Except String (Option String × CCState) :=
  match update w now s with
  | .error e => .error e
  | .ok s1 => .ok (mapGet s1.llvmUriMap uriPath, s1)

/-- `CompileCommands.getPreprocessUri`. -/
def getPreprocessUri (w : World) (now : Int) (s : CCState) (uriPath : String) :
    Except String (Option String × CCState) :=
  match update w now s with
  | .error e => .error e
  | .ok s1 => .ok (mapGet s1.preprocessUriMap uriPath, s1)

/-- `CompileCommands.setExtraCompileArgs` — note: no `update()` call. -/
def setExtraCompileArgs (s : CCState) (extraArgs : List String) : CCState :=
  { s with extraArgs := extraArgs }

/-! ### The AsmDocument rendering layer (src/unnamed/part_000) -/

/-- A parsed assembly line: plain, or carrying a raw numeric address
(`BinaryAsmLine`). -/
inductive AsmLine
  | plain (text : String)
  | binary (address : Nat) (text : String)
deriving DecidableEq

/-- An `AsmDocument`: the compile result plus the parsed lines. -/
structure AsmDocument where
  lines : List AsmLine
  compileResult : CompRes
deriving DecidableEq

/-- The `AsmDocument` constructor: the assembly file is parsed only when
`compile` returned exactly `true`. -/
def docMake (r : CompRes) (parsed : List AsmLine) : AsmDocument :=
  { compileResult := r
  , lines := match r with | .ok => parsed | _ => [] }

/-- Lowercase hexadecimal digit characters, as produced by JavaScript
`Number.prototype.toString(16)`. -/
def hexDigitChar (d : Nat) : Char :=
  if d < 10 then Char.ofNat (48 + d) else Char.ofNat (87 + d)

/-- `address.toString(16)`. -/
def toHex (n : Nat) : String :=
  if n = 0 then "0" else String.mk (((Nat.digits 16 n).reverse).map hexDigitChar)

/-- JavaScript `String.prototype.substr(-8)`: the last eight characters
(the whole string when shorter). -/
def substrNeg8 (s : String) : String := String.mk (s.data.drop (s.data.length - 8))

/-- The address field `("0000000" + address.toString(16)).substr(-8)`. -/
def renderAddress (a : Nat) : String := substrNeg8 ("0000000" ++ toHex a)

/-- How `AsmDocument.value` renders one line. -/
def renderLine : AsmLine → String
  | .binary a t => "<" ++ renderAddress a ++ "> " ++ t
  | .plain t => t

/-- The getter `AsmDocument.value`: a non-`true` compile result renders as
the error string (or the fallback text when that string is falsy), a
successful one as the lines, each followed by a newline. -/
def AsmDocument.value (d : AsmDocument) : String :=
  match d.compileResult with
  | .ok => String.join (d.lines.map (fun l => renderLine l ++ "\n"))
  | .notFound => "Failed to compile."
  | .err s => if s.length = 0 then "Failed to compile." else s

/-- Left-zero-padding of a hex string to eight characters (the form the
spec describes). -/
def zeroPad8 (h : String) : String := String.mk (List.replicate (8 - h.length) '0' ++ h.data)

/-! ## Helper lemmas -/

theorem sanitizeGo_mem (args : List String) : ∀ (st : Bool) (r : String),
    r ∈ sanitizeGo st args → r ≠ "-c" ∧ r ≠ "-g" ∧ r ≠ "-o" := by
  induction args with
  | nil => intro st r h; simp [sanitizeGo] at h
  | cons a rest ih =>
      intro st r h
      cases st with
      | true => exact ih false r h
      | false =>
          by_cases ho : a = "-o"
          · rw [sanitizeGo, if_pos ho] at h
            exact ih true r h
          · by_cases hcg : a = "-c" || a = "-g"
            · rw [sanitizeGo, if_neg ho, if_pos hcg] at h
              exact ih false r h
            · rw [sanitizeGo, if_neg ho, if_neg hcg] at h
              rcases List.mem_cons.mp h with h1 | h2
              · subst h1
                simp only [Bool.or_eq_true, decide_eq_true_eq, not_or] at hcg
                exact ⟨by simpa using hcg.1, by simpa using hcg.2, ho⟩
              · exact ih false r h2

theorem sanitizeGo_eq_maskFilter (args : List String) : ∀ st : Bool,
    sanitizeGo st args = maskFilter args (sanitizeMask st args) := by
  induction args with
  | nil => intro st; cases st <;> rfl
  | cons a rest ih =>
      intro st
      cases st with
      | true => simp [sanitizeGo, sanitizeMask, maskFilter, ih false]
      | false =>
          by_cases ho : a = "-o"
          · simp [sanitizeGo, sanitizeMask, maskFilter, ho, ih true]
          · by_cases hcg : a = "-c" || a = "-g"
            · simp [sanitizeGo, sanitizeMask, maskFilter, ho, hcg, ih false]
            · simp [sanitizeGo, sanitizeMask, maskFilter, ho, hcg, ih false]

/-- Concatenation of a list of strings, each preceded by one space — the
shape the tail of a space-joined command takes. -/
def spacedConcat : List String → String
  | [] => ""
  | a :: rest => " " ++ a ++ spacedConcat rest

theorem getCommand_cons (a : String) (args : List String) :
    getCommand (a :: args) = a ++ spacedConcat args := by
  induction args generalizing a with
  | nil => simp [getCommand, spacedConcat]
  | cons b rest ih =>
      rw [getCommand, ih b]
      simp [spacedConcat, String.append_assoc]

theorem spacedConcat_append (l args : List String) :
    spacedConcat (l ++ args) = spacedConcat l ++ spacedConcat args := by
  induction l with
  | nil => simp [spacedConcat]
  | cons b rest ih => simp [spacedConcat, ih, String.append_assoc]

theorem getCommand_append_join (a : String) (l args : List String) :
    getCommand ((a :: l) ++ args) = getCommand (a :: l) ++ spacedConcat args := by
  show getCommand (a :: (l ++ args)) = _
  rw [getCommand_cons, getCommand_cons, spacedConcat_append, String.append_assoc]

/-! ## Claims -/

/-- **C1** For every BuildRecord and current extra-args list (under the
implicit assumption of the claim that the source and database files can be
statted and the artifact path is a real, non-empty path), `needCompilation`
returns `true` exactly when the extra args differ order-sensitively from
the record's, or the source file is newer than the artifact (an absent
artifact counting as infinitely stale), or the database file is newer than
the artifact. -/
theorem needCompilation_iff_spec (fs : FS) (dbPath : String) (cur : List String)
    (info : CompileInfo) (sm dm : Int)
    (hs : fs info.srcUri = some sm) (hd : fs dbPath = some dm) (hne : info.uri ≠ "") :
    needCompilation fs dbPath cur info =
      .ok (decide (cur ≠ info.extraArgs) || staleAgainst fs sm info.uri ||
        staleAgainst fs dm info.uri) := by
  by_cases hc : cur = info.extraArgs
  · rw [needCompilation, if_neg (by simp [extraArgsChanged, arrayEquals, hc])]
    rw [fileNewer, if_neg (by simp [isFalsyTarget, hne]), hs]
    rw [fileNewer, if_neg (by simp [isFalsyTarget, hne]), hd]
    cases hart : fs info.uri with
    | none => simp [staleAgainst, hart, hc]
    | some am =>
        by_cases hsm : sm > am
        · simp [staleAgainst, hart, hsm, hc]
        · simp [staleAgainst, hart, hsm, hc]
  · rw [needCompilation, if_pos (by simp [extraArgsChanged, arrayEquals, hc])]
    simp [hc]

def fsW1 : FS := fun p =>
  if p = "/w1/src.c" then some 5 else if p = "/w1/db.json" then some 3 else none

def infoW1 : CompileInfo := ⟨"/w1/art.s", "/w1/src.c", "cc", "/w1", []⟩

/-- Witness for C1 at a concrete filesystem (artifact absent, hence stale). -/
theorem needCompilation_iff_spec_witness :
    needCompilation fsW1 "/w1/db.json" [] infoW1 =
      .ok (decide (([] : List String) ≠ infoW1.extraArgs) ||
        staleAgainst fsW1 5 infoW1.uri || staleAgainst fsW1 3 infoW1.uri) :=
  needCompilation_iff_spec fsW1 "/w1/db.json" [] infoW1 5 3 (by decide) (by decide) (by decide)

/-- **C3** counterexample: on the input `["-o", "-o", "x"]` the first
`"-o"` consumes the second as its operand, so the pass never inspects the
second `"-o"` as a flag and the token `"x"` that immediately follows that
removed `"-o"` survives into the result — contradicting the claim that the
result contains no token that immediately followed a removed `"-o"`. -/
theorem sanitize_follower_counterexample :
    sanitizeArgs ["-o", "-o", "x"] = ["x"] ∧
    ¬ (∀ i, (["-o", "-o", "x"] : List String).get? i = some "-o" →
        (sanitizeMask false ["-o", "-o", "x"]).get? (i + 1) ≠ some true) :=
  ⟨by decide, fun h => (h 1 (by decide)) (by decide)⟩

/-- **C3** (amended): `sanitize` is a single left-to-right pass; on the
spec's example it yields exactly `["-O2", "foo.c"]`; no result token is
`-c`, `-g` or `-o`; the result is the input filtered by the pass's
keep-mask; an `-o` met in flag position drops itself and the immediately
following token, which is consumed and not re-inspected (so an `-o` or
`-c`/`-g` standing in operand position does not trigger its own rule); an
`-o` that is the final token drops only itself; `-c`/`-g` in flag position
drop themselves; all other tokens in flag position are kept. -/
theorem sanitize_amended :
    sanitizeArgs ["-c", "-g", "-O2", "-o", "out.o", "foo.c"] = ["-O2", "foo.c"] ∧
    (∀ args r, r ∈ sanitizeArgs args → r ≠ "-c" ∧ r ≠ "-g" ∧ r ≠ "-o") ∧
    (∀ args, sanitizeArgs args = maskFilter args (sanitizeMask false args)) ∧
    (∀ x rest, sanitizeGo false ("-o" :: x :: rest) = sanitizeGo false rest) ∧
    sanitizeGo false ["-o"] = [] ∧
    (∀ a rest, a ≠ "-o" → a ≠ "-c" → a ≠ "-g" →
      sanitizeGo false (a :: rest) = a :: sanitizeGo false rest) ∧
    (∀ a rest, (a = "-c" ∨ a = "-g") → sanitizeGo false (a :: rest) = sanitizeGo false rest) := by
  refine ⟨by decide, ?_, ?_, ?_, by decide, ?_, ?_⟩
  · intro args r h
    exact sanitizeGo_mem args false r h
  · intro args
    exact sanitizeGo_eq_maskFilter args false
  · intro x rest
    rfl
  · intro a rest h1 h2 h3
    rw [sanitizeGo, if_neg h1, if_neg (by simp [h2, h3])]
  · intro a rest h
    rcases h with h | h <;> subst h <;> rfl

/-- Witness for C3's amended theorem at concrete inputs. -/
theorem sanitize_amended_witness :
    ("y" ≠ "-c" ∧ "y" ≠ "-g" ∧ "y" ≠ "-o") ∧
    sanitizeGo false ["-O2"] = ["-O2"] ∧
    sanitizeGo false ["-c", "z"] = sanitizeGo false ["z"] :=
  ⟨sanitize_amended.2.1 ["-o", "x", "y"] "y" (by decide),
   sanitize_amended.2.2.2.2.2.1 "-O2" [] (by decide) (by decide) (by decide),
   sanitize_amended.2.2.2.2.2.2 "-c" ["z"] (Or.inl rfl)⟩

/-- Command shape the spec's words prescribe for the
IntermediateRepresentation artifact: executable, `-g -S -emit-llvm`, then
the sanitized args, then the output clause (refinement comparison
definition, written from the spec, not from the source). -/
def specLLVMCommand (command : String) (args : List String) (outFile : String) : String :=
  getCommand ([command, "-g", "-S", "-emit-llvm"] ++ args ++ ["-o", outFile])

/-- Command shape the spec's words prescribe for the Preprocessed
artifact (refinement comparison definition). -/
def specPreprocessCommand (command : String) (args : List String) (outFile : String) : String :=
  getCommand ([command, "-E"] ++ args ++ ["-o", outFile])

/-- **C5** counterexample: with one sanitized argument `-O2`, the code
emits the output clause immediately after the fixed flags and *before*
the sanitized arguments, so the synthesized strings differ from the
claim's executable/flags/args/output-clause order for both the
IntermediateRepresentation and the Preprocessed artifact. -/
theorem synth_order_counterexample :
    getLLVMDisassembleCommand "cc" ["-O2"] "t.ll" = "cc -g -S -emit-llvm -o t.ll -O2" ∧
    getLLVMDisassembleCommand "cc" ["-O2"] "t.ll" ≠ specLLVMCommand "cc" ["-O2"] "t.ll" ∧
    getPreprocessCommand "cc" ["-O2"] "t.i" = "cc -E -o t.i -O2" ∧
    getPreprocessCommand "cc" ["-O2"] "t.i" ≠ specPreprocessCommand "cc" ["-O2"] "t.i" := by
  refine ⟨by decide, by decide, by decide, by decide⟩

/-- **C5** (amended): the synthesized IntermediateRepresentation command is
the executable followed by `-g -S -emit-llvm`, then the output clause
`-o <target>`, then the sanitized arguments (each preceded by a space);
the Preprocessed command is the executable, `-E`, the output clause, then
the sanitized arguments — i.e. the output clause comes *before*, not
after, the sanitized arguments. -/
theorem synth_order_amended :
    (∀ command args outFile, getLLVMDisassembleCommand command args outFile =
      getCommand [command, "-g", "-S", "-emit-llvm", "-o", outFile] ++ spacedConcat args) ∧
    (∀ command args outFile, getPreprocessCommand command args outFile =
      getCommand [command, "-E", "-o", outFile] ++ spacedConcat args) := by
  constructor
  · intro command args outFile
    exact getCommand_append_join command ["-g", "-S", "-emit-llvm", "-o", outFile] args
  · intro command args outFile
    exact getCommand_append_join command ["-E", "-o", outFile] args

def infoW6 : CompileInfo := ⟨"/w6/a.s", "/w6/a.c", "cc -S a.c", "/w6", ["-old"]⟩

/-- **C6** `execCompileCommand` mutates the record's `extraArgs` to the
supplied list exactly when the build succeeded; a failed build — nonzero
exit status or a process start failure — leaves the record untouched and
returns the captured error text. -/
theorem execute_extraArgs_contract :
    ∀ (info : CompileInfo) (extraArgs : List String) (build filt : SpawnResult),
      (buildFailed build = true ↔
        ((∃ n, build.status = some n ∧ n ≠ 0) ∨ build.error.isSome = true)) ∧
      (buildFailed build = false →
        (execCompileCommand info extraArgs build filt).info =
          { info with extraArgs := extraArgs } ∧
        (execCompileCommand info extraArgs build filt).result = .ok) ∧
      (buildFailed build = true →
        (execCompileCommand info extraArgs build filt).info = info ∧
        (execCompileCommand info extraArgs build filt).result = .err (execErrorMsg build)) := by
  intro info extraArgs build filt
  refine ⟨?_, ?_, ?_⟩
  · cases hb : build.status with
    | none => simp [buildFailed, hb]
    | some n => simp [buildFailed, hb]
  · intro h
    simp [execCompileCommand, h]
  · intro h
    simp [execCompileCommand, h]

/-- Witness for C6: a successful build records the new extra args, a
failed build leaves the record unchanged. -/
theorem execute_extraArgs_contract_witness :
    (execCompileCommand infoW6 ["-O2"] ⟨some 0, none, none⟩ ⟨some 0, none, none⟩).info =
      { infoW6 with extraArgs := ["-O2"] } ∧
    (execCompileCommand infoW6 ["-O2"] ⟨some 1, none, some ["boom"]⟩ ⟨some 0, none, none⟩).info =
      infoW6 :=
  ⟨((execute_extraArgs_contract infoW6 ["-O2"] ⟨some 0, none, none⟩
      ⟨some 0, none, none⟩).2.1 (by decide)).1,
   ((execute_extraArgs_contract infoW6 ["-O2"] ⟨some 1, none, some ["boom"]⟩
      ⟨some 0, none, none⟩).2.2 (by decide)).1⟩

def infoC7 : CompileInfo := ⟨"/w7/a.s", "/w7/a.c", "cc -S a.c", "/w7", []⟩

def buildFailC7 : SpawnResult := ⟨some 1, none, some ["boom"]⟩

/-- **C7** counterexample: `execCompileCommand` spawns the demangling
post-pass even on a build that failed (exit status 1), so the post-pass is
not run "exactly when the external build process succeeds". -/
theorem demangle_pass_counterexample :
    ¬ (((filtCommand infoC7.uri, infoC7.compilationDirectory) ∈
          (execCompileCommand infoC7 [] buildFailC7 ⟨some 0, none, none⟩).invocations) ↔
        buildFailed buildFailC7 = false) := by decide

/-- **C7** (amended): the fixed demangling post-pass is spawned on *every*
`execCompileCommand` call, successful or failed build alike; its outcome
never changes the returned result, the record mutation, or the set of
spawned commands, and its exit status, when present, is only logged to the
error channel. -/
theorem demangle_pass_amended :
    ∀ (info : CompileInfo) (extraArgs : List String) (build filt : SpawnResult),
      ((filtCommand info.uri, info.compilationDirectory) ∈
        (execCompileCommand info extraArgs build filt).invocations) ∧
      (∀ filt2,
        (execCompileCommand info extraArgs build filt).result =
          (execCompileCommand info extraArgs build filt2).result ∧
        (execCompileCommand info extraArgs build filt).info =
          (execCompileCommand info extraArgs build filt2).info ∧
        (execCompileCommand info extraArgs build filt).invocations =
          (execCompileCommand info extraArgs build filt2).invocations) ∧
      (∀ n, filt.status = some n →
        toString n ∈ (execCompileCommand info extraArgs build filt).log) := by
  intro info extraArgs build filt
  refine ⟨?_, ?_, ?_⟩
  · by_cases h : buildFailed build <;> simp [execCompileCommand, h]
  · intro filt2
    by_cases h : buildFailed build <;> simp [execCompileCommand, h]
  · intro n hn
    by_cases h : buildFailed build <;> simp [execCompileCommand, h, hn]

/-- Witness for C7's amended theorem: on a failed build with a demangling
pass that exited with status 5, the status string is logged. -/
theorem demangle_pass_amended_witness :
    toString (5 : Int) ∈
      (execCompileCommand infoC7 [] buildFailC7 ⟨some 5, none, none⟩).log :=
  (demangle_pass_amended infoC7 [] buildFailC7 ⟨some 5, none, none⟩).2.2 5 rfl

theorem toHex_length_le (a : Nat) (h : a < 2 ^ 32) : (toHex a).length ≤ 8 := by
  by_cases h0 : a = 0
  · subst h0; decide
  · rw [toHex, if_neg h0]
    show (List.map hexDigitChar (Nat.digits 16 a).reverse).length ≤ 8
    rw [List.length_map, List.length_reverse]
    rw [Nat.digits_len 16 a (by norm_num) h0]
    have h16 : a < 16 ^ 8 := by norm_num at h ⊢; omega
    have := Nat.log_lt_of_lt_pow h0 h16
    omega

theorem toHex_length_pos (a : Nat) : 1 ≤ (toHex a).length := by
  by_cases h0 : a = 0
  · subst h0; decide
  · rw [toHex, if_neg h0]
    show 1 ≤ (List.map hexDigitChar (Nat.digits 16 a).reverse).length
    rw [List.length_map, List.length_reverse]
    have : Nat.digits 16 a ≠ [] := Nat.digits_ne_nil_iff_ne_zero.mpr h0
    cases hd : Nat.digits 16 a with
    | nil => exact absurd hd this
    | cons x xs => simp

theorem renderAddress_eq_zeroPad8 (a : Nat) (h : a < 2 ^ 32) :
    renderAddress a = zeroPad8 (toHex a) := by
  have hle := toHex_length_le a h
  have hpos := toHex_length_pos a
  have hdata : (toHex a).length = (toHex a).data.length := rfl
  rw [renderAddress, substrNeg8, zeroPad8]
  have happ : ("0000000" ++ toHex a).data = List.replicate 7 '0' ++ (toHex a).data := by
    have h1 : ("0000000" ++ toHex a).data = ("0000000" : String).data ++ (toHex a).data := rfl
    rw [h1]
    congr 1
  rw [happ]
  rw [List.length_append, List.length_replicate]
  have hlen : 7 + (toHex a).data.length - 8 = (toHex a).data.length - 1 := by omega
  rw [hlen]
  rw [List.drop_append_of_le_length (by rw [List.length_replicate]; omega)]
  rw [List.drop_replicate]
  have h78 : 7 - ((toHex a).data.length - 1) = 8 - (toHex a).length := by omega
  rw [h78]

/-- **C9** counterexample: on a successfully built document with a single
plain line, `value` appends a newline after the line (every line is
newline-terminated), so the rendered value is not the newline-*joined*
line texts the claim describes. -/
theorem render_join_counterexample :
    (docMake .ok [.plain "mov eax, 1"]).value = "mov eax, 1\n" ∧
    (docMake .ok [.plain "mov eax, 1"]).value ≠
      String.intercalate "\n" (([.plain "mov eax, 1"] : List AsmLine).map renderLine) := by
  refine ⟨by decide, by decide⟩

/-- **C9** (amended): a failed build renders exactly the (non-empty) error
text with no parsed lines; a missing record renders the fixed fallback
text; a successful build renders every line followed by a newline
(newline-terminated, not newline-joined), where a line carrying a raw
numeric address below 2^32 gets the 8-hex-digit zero-padded
`<00abcdef> text` prefix form and every other line renders its text
verbatim. -/
theorem render_contract_amended :
    ∀ (r : CompRes) (parsed : List AsmLine),
      (∀ s, r = .err s → s ≠ "" → (docMake r parsed).value = s ∧ (docMake r parsed).lines = []) ∧
      ((docMake .notFound parsed).value = "Failed to compile." ∧
        (docMake .notFound parsed).lines = []) ∧
      (r = .ok → (docMake r parsed).value =
        String.join (parsed.map (fun l => renderLine l ++ "\n"))) ∧
      (∀ a t, a < 2 ^ 32 → renderLine (.binary a t) = "<" ++ zeroPad8 (toHex a) ++ "> " ++ t ∧
        (zeroPad8 (toHex a)).length = 8) ∧
      (∀ t, renderLine (.plain t) = t) := by
  intro r parsed
  refine ⟨?_, ⟨rfl, rfl⟩, ?_, ?_, fun t => rfl⟩
  · intro s hr hs
    subst hr
    constructor
    · show (if s.length = 0 then "Failed to compile." else s) = s
      rw [if_neg ?_]
      obtain ⟨d⟩ := s
      simp only [String.length]
      intro hl
      apply hs
      have : d = [] := List.length_eq_zero.mp hl
      simp [this]
    · rfl
  · intro hr
    subst hr
    rfl
  · intro a t h
    constructor
    · show "<" ++ renderAddress a ++ "> " ++ t = _
      rw [renderAddress_eq_zeroPad8 a h]
    · have hle := toHex_length_le a h
      show (List.replicate (8 - (toHex a).length) '0' ++ (toHex a).data).length = 8
      rw [List.length_append, List.length_replicate]
      have : (toHex a).length = (toHex a).data.length := rfl
      omega

/-- Witness for C9's amended theorem at concrete documents. -/
theorem render_contract_amended_witness :
    ((docMake (.err "boom") []).value = "boom" ∧ (docMake (.err "boom") []).lines = []) ∧
    (renderLine (.binary 11259375 "t") = "<" ++ zeroPad8 (toHex 11259375) ++ "> " ++ "t" ∧
      (zeroPad8 (toHex 11259375)).length = 8) ∧
    (docMake .ok [.plain "a"]).value =
      String.join (([.plain "a"] : List AsmLine).map (fun l => renderLine l ++ "\n")) :=
  ⟨(render_contract_amended (.err "boom") []).1 "boom" rfl (by decide),
   (render_contract_amended .ok []).2.2.2.1 11259375 "t" (by norm_num),
   (render_contract_amended .ok [.plain "a"]).2.2.1 rfl⟩

/-- **C2** `compile`'s contract: (i) a missing BuildRecord yields the
`false` (not-found) result; (ii) with a record present, no database reload
pending, and the staleness oracle reporting not stale, `compile` returns
success with the state exactly unchanged and no process spawned; (iii) two
consecutive requests where the first builds successfully and nothing
changes in between (same database file and load stamp, source untouched,
extra-args unchanged, the built artifact now at least as fresh as source
and database) spawn the external build exactly once: the first call spawns
the build (plus the demangling post-pass), the second spawns nothing and
leaves the state untouched. -/
theorem compile_contract :
    (∀ (w : World) (now : Int) (build filt : SpawnResult) (s s1 : CCState) (p : String),
      update w now s = .ok s1 → mapGet s1.compileCommands p = none →
      compile w now build filt s p = .ok (.notFound, s1, [])) ∧
    (∀ (w : World) (now : Int) (build filt : SpawnResult) (s : CCState) (p : String)
        (info : CompileInfo),
      update w now s = .ok s → mapGet s.compileCommands p = some info →
      needCompilation w.fs w.dbPath s.extraArgs info = .ok false →
      compile w now build filt s p = .ok (.ok, s, [])) ∧
    (∀ (w w2 : World) (now now2 : Int) (build filt build2 filt2 : SpawnResult)
        (s : CCState) (p : String) (info : CompileInfo) (t dm sm am : Int),
      s.initTime = some t → w.fs w.dbPath = some dm → dm ≤ t →
      mapGet s.compileCommands p = some info →
      needCompilation w.fs w.dbPath s.extraArgs info = .ok true →
      buildFailed build = false →
      w2.dbPath = w.dbPath → w2.fs w.dbPath = some dm →
      w2.fs info.srcUri = some sm → w2.fs info.uri = some am →
      sm ≤ am → dm ≤ am → info.uri ≠ "" →
      compile w now build filt s p =
        .ok (.ok,
          { s with compileCommands :=
              mapSet s.compileCommands p { info with extraArgs := s.extraArgs } },
          [(info.command ++ " " ++ getCommand s.extraArgs, info.compilationDirectory),
           (filtCommand info.uri, info.compilationDirectory)]) ∧
      compile w2 now2 build2 filt2
          { s with compileCommands :=
              mapSet s.compileCommands p { info with extraArgs := s.extraArgs } } p =
        .ok (.ok,
          { s with compileCommands :=
              mapSet s.compileCommands p { info with extraArgs := s.extraArgs } },
          [])) := by
  refine ⟨?_, ?_, ?_⟩
  · intro w now build filt s s1 p h1 h2
    simp only [compile, h1, h2]
  · intro w now build filt s p info h1 h2 h3
    simp only [compile, h1, h2, h3]
  · intro w w2 now now2 build filt build2 filt2 s p info t dm sm am
      hinit hdb1 hdbt hrec hstale hok hdbp hdb2 hsrc2 hart2 hsm hdm hup
    have hngt : ¬ (dm > t) := by omega
    have hfn : fileNewer w.fs w.dbPath (s.initTime.map FileTarget.date) = .ok false := by
      rw [hinit]
      show fileNewer w.fs w.dbPath (some (.date t)) = .ok false
      rw [fileNewer, if_neg (by simp [isFalsyTarget]), hdb1]
      simp [hngt]
    have hupd : update w now s = .ok s := by
      simp only [update, hfn]
    constructor
    · simp only [compile, hupd, hrec, hstale, execCompileCommand, hok]
      simp
    · have hfn2 : fileNewer w2.fs w2.dbPath
          ((({ s with compileCommands :=
                mapSet s.compileCommands p { info with extraArgs := s.extraArgs } } :
              CCState).initTime).map FileTarget.date) = .ok false := by
        show fileNewer w2.fs w2.dbPath (s.initTime.map FileTarget.date) = .ok false
        rw [hinit]
        show fileNewer w2.fs w2.dbPath (some (.date t)) = .ok false
        rw [fileNewer, if_neg (by simp [isFalsyTarget]), hdbp, hdb2]
        simp [hngt]
      have hupd2 : update w2 now2
          { s with compileCommands :=
              mapSet s.compileCommands p { info with extraArgs := s.extraArgs } } =
          .ok { s with compileCommands :=
                  mapSet s.compileCommands p { info with extraArgs := s.extraArgs } } := by
        simp only [update, hfn2]
      have hrec2 : mapGet (mapSet s.compileCommands p { info with extraArgs := s.extraArgs }) p =
          some { info with extraArgs := s.extraArgs } :=
        mapGet_mapSet_self s.compileCommands p { info with extraArgs := s.extraArgs }
      have hnsm : ¬ (sm > am) := by omega
      have hndm : ¬ (dm > am) := by omega
      have hstale2 : needCompilation w2.fs w2.dbPath s.extraArgs
          { info with extraArgs := s.extraArgs } = .ok false := by
        rw [needCompilation,
          if_neg (by simp [extraArgsChanged, arrayEquals])]
        have hf1 : fileNewer w2.fs info.srcUri (some (.path info.uri)) = .ok false := by
          rw [fileNewer, if_neg (by simp [isFalsyTarget, hup]), hsrc2]
          simp [hart2, hnsm]
        have hf2 : fileNewer w2.fs w2.dbPath (some (.path info.uri)) = .ok false := by
          rw [fileNewer, if_neg (by simp [isFalsyTarget, hup]), hdbp, hdb2]
          simp [hart2, hndm]
        show (match fileNewer w2.fs ({ info with extraArgs := s.extraArgs } :
            CompileInfo).srcUri (some (.path ({ info with extraArgs := s.extraArgs } :
            CompileInfo).uri)) with
          | Except.error e => Except.error e
          | Except.ok true => Except.ok true
          | Except.ok false => fileNewer w2.fs w2.dbPath
              (some (.path ({ info with extraArgs := s.extraArgs } : CompileInfo).uri))) =
          (Except.ok false : Except String Bool)
        simp only [show ({ info with extraArgs := s.extraArgs } : CompileInfo).srcUri =
          info.srcUri from rfl,
          show ({ info with extraArgs := s.extraArgs } : CompileInfo).uri = info.uri from rfl,
          hf1, hf2]
      simp only [compile, hupd2, hrec2, hstale2]

def fsA : FS := fun p =>
  if p = "/wa/db" then some 0 else if p = "/wa/s.c" then some 1 else none

def wA : World := ⟨fsA, "/wa/db", [], "/out/", "/"⟩

def infoA : CompileInfo := ⟨"/wa/a.s", "/wa/s.c", "cc -S s.c", "/wa", ["-old"]⟩

def sA : CCState := ⟨[("/wa/a.s", infoA)], [], [], [], some 5, []⟩

def fsA2 : FS := fun p =>
  if p = "/wa/db" then some 0 else if p = "/wa/s.c" then some 1
  else if p = "/wa/a.s" then some 9 else none

def wA2 : World := ⟨fsA2, "/wa/db", [], "/out/", "/"⟩

def bOkA : SpawnResult := ⟨some 0, none, some []⟩

def fsB : FS := fun p =>
  if p = "/wb/db" then some 0 else if p = "/wb/s.c" then some 1
  else if p = "/wb/a.s" then some 9 else none

def wB : World := ⟨fsB, "/wb/db", [], "/out/", "/"⟩

def infoB : CompileInfo := ⟨"/wb/a.s", "/wb/s.c", "cc", "/wb", []⟩

def sB : CCState := ⟨[("/wb/a.s", infoB)], [], [], [], some 5, []⟩

/-- Witness for C2 at concrete worlds: an unknown artifact id fails, a
fresh artifact is served with no spawn, and a stale-then-rebuilt artifact
spawns the build exactly once over two requests. -/
theorem compile_contract_witness :
    compile wA 9 bOkA bOkA sA "/zz" = .ok (.notFound, sA, []) ∧
    compile wB 9 bOkA bOkA sB "/wb/a.s" = .ok (.ok, sB, []) ∧
    (compile wA 9 bOkA bOkA sA "/wa/a.s" =
        .ok (.ok,
          { sA with compileCommands :=
              mapSet sA.compileCommands "/wa/a.s" { infoA with extraArgs := sA.extraArgs } },
          [(infoA.command ++ " " ++ getCommand sA.extraArgs, infoA.compilationDirectory),
           (filtCommand infoA.uri, infoA.compilationDirectory)]) ∧
      compile wA2 11 bOkA bOkA
          { sA with compileCommands :=
              mapSet sA.compileCommands "/wa/a.s" { infoA with extraArgs := sA.extraArgs } }
          "/wa/a.s" =
        .ok (.ok,
          { sA with compileCommands :=
              mapSet sA.compileCommands "/wa/a.s" { infoA with extraArgs := sA.extraArgs } },
          [])) :=
  ⟨compile_contract.1 wA 9 bOkA bOkA sA sA "/zz" rfl (by decide),
   compile_contract.2.1 wB 9 bOkA bOkA sB "/wb/a.s" infoB rfl (by decide) rfl,
   compile_contract.2.2 wA wA2 9 11 bOkA bOkA bOkA bOkA sA "/wa/a.s" infoA 5 0 1 9
     rfl rfl (by decide) (by decide) rfl (by decide) rfl
     rfl rfl rfl (by decide) (by decide) (by decide)⟩

def rawC8 : CompileCommandRaw := ⟨"a.c", "cc -c a.c", [], "/p8"⟩

def fsC8 : FS := fun p => if p = "/p8/db" then some 5 else none

def wC8 : World := ⟨fsC8, "/p8/db", [rawC8], "/out/", "/p8"⟩

def sC8 : CCState := ⟨[], [], [], [], some 0, []⟩

/-- **C8** counterexample: the database file (mtime 5) is newer than the
last load stamp (0) and a reload would register entries, yet the public
operation `setExtraCompileArgs` completes without any reload check,
serving from (and leaving behind) the stale empty registry — so not every
public operation is reload-checking. -/
theorem reload_check_counterexample :
    fileNewer wC8.fs wC8.dbPath (sC8.initTime.map FileTarget.date) = .ok true ∧
    setExtraCompileArgs sC8 ["-O2"] = { sC8 with extraArgs := ["-O2"] } ∧
    (setExtraCompileArgs sC8 ["-O2"]).compileCommands = [] ∧
    ((init wC8 7 { sC8 with compileCommands := [] }).1.compileCommands).length = 3 := by
  refine ⟨rfl, rfl, rfl, by decide⟩

/-- **C8** (amended): `compile` and the four lookup operations each first
run the hot-reload check: when the database file is newer than the last
load stamp they serve from the freshly reloaded registry (only the
artifact-to-record map is cleared before the reload), otherwise from the
unchanged state, and a thrown stat error propagates; `setExtraCompileArgs`
performs no reload check at all — it only overwrites the extra-args
field. -/
theorem reload_check_amended :
    (∀ (w : World) (now : Int) (s : CCState),
      fileNewer w.fs w.dbPath (s.initTime.map FileTarget.date) = .ok true →
      update w now s = .ok (init w now { s with compileCommands := [] }).1) ∧
    (∀ (w : World) (now : Int) (s : CCState),
      fileNewer w.fs w.dbPath (s.initTime.map FileTarget.date) = .ok false →
      update w now s = .ok s) ∧
    (∀ (w : World) (now : Int) (s s1 : CCState) (p : String),
      update w now s = .ok s1 →
      getSrcUri w now s p = .ok ((mapGet s1.compileCommands p).map CompileInfo.srcUri, s1) ∧
      getAsmUri w now s p = .ok (mapGet s1.asmUriMap p, s1) ∧
      getLLVMUri w now s p = .ok (mapGet s1.llvmUriMap p, s1) ∧
      getPreprocessUri w now s p = .ok (mapGet s1.preprocessUriMap p, s1)) ∧
    (∀ (w : World) (now : Int) (build filt : SpawnResult) (s : CCState) (p e : String),
      update w now s = .error e → compile w now build filt s p = .error e) ∧
    (∀ (s : CCState) (args : List String),
      setExtraCompileArgs s args = { s with extraArgs := args }) := by
  refine ⟨?_, ?_, ?_, ?_, fun s args => rfl⟩
  · intro w now s h
    simp only [update, h]
  · intro w now s h
    simp only [update, h]
  · intro w now s s1 p h
    exact ⟨by simp only [getSrcUri, h], by simp only [getAsmUri, h],
      by simp only [getLLVMUri, h], by simp only [getPreprocessUri, h]⟩
  · intro w now build filt s p e h
    simp only [compile, h]

def fsN : FS := fun _ => none

def wN : World := ⟨fsN, "/n/db", [], "/o/", "/"⟩

def sN : CCState := ⟨[], [], [], [], some 3, []⟩

/-- Witness for C8's amended theorem at concrete worlds. -/
theorem reload_check_amended_witness :
    update wC8 7 sC8 = .ok (init wC8 7 { sC8 with compileCommands := [] }).1 ∧
    update wB 9 sB = .ok sB ∧
    getAsmUri wB 9 sB "/x" = .ok (mapGet sB.asmUriMap "/x", sB) ∧
    compile wN 1 bOkA bOkA sN "/q" = .error ("ENOENT: " ++ wN.dbPath) :=
  ⟨reload_check_amended.1 wC8 7 sC8 rfl,
   reload_check_amended.2.1 wB 9 sB rfl,
   (reload_check_amended.2.2.1 wB 9 sB sB "/x" rfl).2.1,
   reload_check_amended.2.2.2.1 wN 1 bOkA bOkA sN "/q" ("ENOENT: " ++ wN.dbPath) rfl⟩

def fsC10 : FS := fun p => if p = "/wc/db" then some 0 else none

def wC10 : World := ⟨fsC10, "/wc/db", [], "/o/", "/"⟩

def infoC10 : CompileInfo := ⟨"/wc/a.s", "/wc/s.c", "cc -S s.c", "/wc", []⟩

def sC10 : CCState := ⟨[("/wc/a.s", infoC10)], [], [], [], some 5, ["-O2"]⟩

/-- **C10** counterexample: with the database file deleted after a
successful load, the public operation `setExtraCompileArgs` completes
normally instead of throwing (it never stats anything); and `compile` on a
record whose source file no longer exists does *not* throw when the
extra-args delta already marks the record stale — the staleness oracle
short-circuits before the stat and the call returns a BuildError-style
error document. -/
theorem unguarded_stat_counterexample :
    wN.fs wN.dbPath = none ∧ sN.initTime = some 3 ∧
    setExtraCompileArgs sN ["-x"] = { sN with extraArgs := ["-x"] } ∧
    wC10.fs infoC10.srcUri = none ∧ sC10.extraArgs ≠ infoC10.extraArgs ∧
    compile wC10 9 ⟨some 1, none, some ["", "boom"]⟩ bOkA sC10 "/wc/a.s" =
      .ok (.err "\nboom  failed with error code 1", sC10,
        [("cc -S s.c -O2", "/wc"), (filtCommand "/wc/a.s", "/wc")]) := by
  refine ⟨rfl, rfl, rfl, rfl, by decide, rfl⟩

/-- **C10** (amended): after a successful load, deleting the database file
makes `compile` and every lookup operation throw from the unguarded
`statSync` in the hot-reload check; `compile` on a record whose source
file no longer exists throws from the staleness oracle's unguarded stat
*provided the extra-args are unchanged* (an args delta short-circuits the
stat); in a freshness comparison only the target path is
existence-guarded — a missing target yields `true`, a missing source
always throws. -/
theorem unguarded_stat_amended :
    (∀ (w : World) (now t : Int) (s : CCState),
      s.initTime = some t → w.fs w.dbPath = none →
      update w now s = .error ("ENOENT: " ++ w.dbPath)) ∧
    (∀ (w : World) (now : Int) (build filt : SpawnResult) (s : CCState) (p e : String),
      update w now s = .error e →
      compile w now build filt s p = .error e ∧ getSrcUri w now s p = .error e ∧
      getAsmUri w now s p = .error e ∧ getLLVMUri w now s p = .error e ∧
      getPreprocessUri w now s p = .error e) ∧
    (∀ (w : World) (now : Int) (build filt : SpawnResult) (s : CCState) (p : String)
        (info : CompileInfo),
      update w now s = .ok s → mapGet s.compileCommands p = some info →
      s.extraArgs = info.extraArgs → w.fs info.srcUri = none → info.uri ≠ "" →
      compile w now build filt s p = .error ("ENOENT: " ++ info.srcUri)) ∧
    (∀ (fs : FS) (source p : String) (m : Int), p ≠ "" → fs source = some m →
      fileNewer fs source (some (.path p)) =
        .ok (match fs p with | none => true | some tm => decide (m > tm))) ∧
    (∀ (fs : FS) (source p : String), p ≠ "" → fs source = none →
      fileNewer fs source (some (.path p)) = .error ("ENOENT: " ++ source)) := by
  refine ⟨?_, ?_, ?_, ?_, ?_⟩
  · intro w now t s hinit hdb
    have hfn : fileNewer w.fs w.dbPath (s.initTime.map FileTarget.date) =
        .error ("ENOENT: " ++ w.dbPath) := by
      rw [hinit]
      show fileNewer w.fs w.dbPath (some (.date t)) = _
      rw [fileNewer, if_neg (by simp [isFalsyTarget]), hdb]
    simp only [update, hfn]
  · intro w now build filt s p e h
    exact ⟨by simp only [compile, h], by simp only [getSrcUri, h], by simp only [getAsmUri, h],
      by simp only [getLLVMUri, h], by simp only [getPreprocessUri, h]⟩
  · intro w now build filt s p info hupd hrec hargs hsrc hup
    have hfn : fileNewer w.fs info.srcUri (some (.path info.uri)) =
        .error ("ENOENT: " ++ info.srcUri) := by
      rw [fileNewer, if_neg (by simp [isFalsyTarget, hup]), hsrc]
    have hneed : needCompilation w.fs w.dbPath s.extraArgs info =
        .error ("ENOENT: " ++ info.srcUri) := by
      rw [needCompilation, if_neg (by simp [extraArgsChanged, arrayEquals, hargs]), hfn]
    simp only [compile, hupd, hrec, hneed]
  · intro fs source p m hp hm
    rw [fileNewer, if_neg (by simp [isFalsyTarget, hp]), hm]
    show (match fs p with
      | none => (Except.ok true : Except String Bool)
      | some tgtM => Except.ok (decide (m > tgtM))) = _
    cases hfp : fs p <;> rfl
  · intro fs source p hp hm
    rw [fileNewer, if_neg (by simp [isFalsyTarget, hp]), hm]

def sC10b : CCState := ⟨[("/wc/a.s", infoC10)], [], [], [], some 5, []⟩

/-- Witness for C10's amended theorem at concrete worlds. -/
theorem unguarded_stat_amended_witness :
    update wN 1 sN = .error ("ENOENT: " ++ wN.dbPath) ∧
    getSrcUri wN 1 sN "/q" = .error ("ENOENT: " ++ wN.dbPath) ∧
    compile wC10 9 bOkA bOkA sC10b "/wc/a.s" = .error ("ENOENT: " ++ infoC10.srcUri) ∧
    fileNewer fsC10 "/wc/db" (some (.path "/zz")) =
      .ok (match fsC10 "/zz" with | none => true | some tm => decide ((0 : Int) > tm)) ∧
    fileNewer fsC10 "/gone" (some (.path "/zz")) = .error ("ENOENT: " ++ "/gone") :=
  ⟨unguarded_stat_amended.1 wN 1 3 sN rfl rfl,
   (unguarded_stat_amended.2.1 wN 1 bOkA bOkA sN "/q" ("ENOENT: " ++ wN.dbPath) rfl).2.1,
   unguarded_stat_amended.2.2.1 wC10 9 bOkA bOkA sC10b "/wc/a.s" infoC10 rfl rfl rfl rfl
     (by decide),
   unguarded_stat_amended.2.2.2.1 fsC10 "/wc/db" "/zz" 0 (by decide) rfl,
   unguarded_stat_amended.2.2.2.2 fsC10 "/gone" "/zz" (by decide) rfl⟩

def fsC4 : FS := fun p =>
  if p = "/p/compile_commands.json" then some 0 else if p = "/p/a.c" then some 5 else none

def wC4 : World :=
  ⟨fsC4, "/p/compile_commands.json",
    [⟨"a.c", "/usr/bin/cc -O2 -g -c a.c -o a.o", [], "/p"⟩], "/out/", "/p"⟩

def sEmpty : CCState := ⟨[], [], [], [], none, []⟩

def stC4 : CCState := (init wC4 10 sEmpty).1

/-- **C4** counterexample: loading the database entry
`{"file":"a.c","directory":"/p","command":"/usr/bin/cc -O2 -g -c a.c -o a.o"}`
(output directory `/out/`, workspace root `/p`) registers the Disassembly
artifact under `/out/a.c.s` — `@` only replaces path separators, of which
`a.c` has none — with a synthesized command that keeps the sanitized
source operand `a.c` before the output clause; the claim's string (no
`a.c` operand, artifact named `a@c.s`) is not what is synthesized, and no
record exists under the claimed artifact name. -/
theorem disassemble_command_counterexample :
    mapGet stC4.asmUriMap "/p/a.c" = some "/out/a.c.s" ∧
    (mapGet stC4.compileCommands "/out/a.c.s").map CompileInfo.command =
      some ("/usr/bin/cc -g1 -S -masm=intel -fno-unwind-tables " ++
        "-fno-asynchronous-unwind-tables -fno-dwarf2-cfi-asm -O2 a.c -o \"/out/a.c.s\"") ∧
    ("/usr/bin/cc -g1 -S -masm=intel -fno-unwind-tables " ++
        "-fno-asynchronous-unwind-tables -fno-dwarf2-cfi-asm -O2 a.c -o \"/out/a.c.s\"") ≠
      ("/usr/bin/cc -g1 -S -masm=intel -fno-unwind-tables " ++
        "-fno-asynchronous-unwind-tables -fno-dwarf2-cfi-asm -O2 -o \"/out/a@c.s\"") ∧
    mapGet stC4.compileCommands "/out/a@c.s" = none := by
  refine ⟨rfl, rfl, by decide, rfl⟩

/-- **C4** (amended): for that database entry, requesting the Disassembly
artifact uses the BuildRecord whose synthesized command is exactly
`/usr/bin/cc -g1 -S -masm=intel -fno-unwind-tables
-fno-asynchronous-unwind-tables -fno-dwarf2-cfi-asm -O2 a.c -o
"<outDir>a.c.s"` with compilation directory `/p`, and the build spawns
that command (with the joined extra args — here none — appended after one
space) with working directory `/p`. -/
theorem disassemble_command_amended :
    mapGet stC4.compileCommands "/out/a.c.s" =
      some ⟨"/out/a.c.s", "/p/a.c",
        "/usr/bin/cc -g1 -S -masm=intel -fno-unwind-tables " ++
          "-fno-asynchronous-unwind-tables -fno-dwarf2-cfi-asm -O2 a.c -o \"/out/a.c.s\"",
        "/p", []⟩ ∧
    compile wC4 20 bOkA bOkA stC4 "/out/a.c.s" =
      .ok (.ok, stC4,
        [("/usr/bin/cc -g1 -S -masm=intel -fno-unwind-tables " ++
            "-fno-asynchronous-unwind-tables -fno-dwarf2-cfi-asm -O2 a.c -o \"/out/a.c.s\" ",
          "/p"),
         (filtCommand "/out/a.c.s", "/p")]) := by
  refine ⟨rfl, rfl⟩
